import Mathlib

/-!
Verification development for the DeltaScan frontend's job-status
reconciliation and stream-aggregation subsystem.

The definitions below are a shallow embedding of the TypeScript source:
  * `jsonParse` models `JSON.parse` on the JSON grammar (strings with the
    standard single-character escapes, numbers, booleans, null, arrays,
    objects); it returns `none` exactly where `JSON.parse` throws.
  * `processLine` / `consumeStream` model the per-chunk stream loop of
    `startAiAnalysis` (results page component).
  * `extractKeyFindings` models the regex pipeline of the same component.
  * `getStatusModel` models `getStatus` of `src/lib/api.ts` (the
    FastAPI-backed version), with network calls abstracted as
    already-resolved `Except` outcomes supplied in a `GetStatusEnv`.
Progress fractions are decimal tenths in the source (0.1, 0.5, 0.7, 0.8);
they are encoded here as exact integer tenths (`progressTenths`), and the
percent-valued constants 0.85 / 0.2 of the synthesized result record as
integer hundredths, so that every definition is kernel-computable.
-/

namespace DeltaScan

/-- JavaScript whitespace characters relevant to `trim` and the regex
class backslash-s, restricted to the ASCII range exercised here. -/
def isJsWs (c : Char) : Bool :=
  c == ' ' || c == '\t' || c == '\n' || c == '\r' ||
  c == '\x0b' || c == '\x0c'

/-- Model of `String.prototype.trim` over the character list. -/
def trimChars (l : List Char) : List Char :=
  ((l.dropWhile isJsWs).reverse.dropWhile isJsWs).reverse

/-- First list is a leading pattern of the second. -/
def lcStartsWith : List Char → List Char → Bool
  | [], _ => true
  | _ :: _, [] => false
  | p :: ps, c :: cs => p == c && lcStartsWith ps cs

/-- Model of `String.prototype.includes`: the needle occurs somewhere in
the haystack. -/
def containsSub (needle : List Char) : List Char → Bool
  | [] => lcStartsWith needle []
  | c :: rest => lcStartsWith needle (c :: rest) || containsSub needle rest

/-- Model of `String.prototype.endsWith` over character lists. -/
def lcEndsWith (suffix l : List Char) : Bool :=
  lcStartsWith suffix.reverse l.reverse

/-- Model of `"...".split(c)` for a single-character separator: JavaScript
keeps empty segments, and a trailing separator yields a final empty
segment. -/
def splitOnChar (sep : Char) : List Char → List (List Char)
  | [] => [[]]
  | c :: rest =>
    if c == sep then [] :: splitOnChar sep rest
    else
      match splitOnChar sep rest with
      | [] => [[c]]
      | l :: ls => (c :: l) :: ls

/-- String from a character list. -/
def chStr (l : List Char) : String := ⟨l⟩

/-! JSON values, as produced by `JSON.parse`.  Numbers keep their source
literal text; only their zero-ness is ever consulted (for JavaScript
truthiness), which the literal determines exactly. -/

inductive Json where
  | str (s : String)
  | num (lit : String)
  | bool (b : Bool)
  | null
  | arr (elems : List Json)
  | obj (fields : List (String × Json))

/-- JSON interelement whitespace (space, tab, line feed, carriage return). -/
def isJsonWs (c : Char) : Bool :=
  c == ' ' || c == '\t' || c == '\n' || c == '\r'

def skipWs (l : List Char) : List Char := l.dropWhile isJsonWs

/-- Decodes one escape character of a JSON string (the character after the
backslash).  The `\uXXXX` form is not needed by any input considered here
and is conservatively rejected. -/
def escChar : Char → Option Char
  | '"' => some '"'
  | '\\' => some '\\'
  | '/' => some '/'
  | 'b' => some '\x08'
  | 'f' => some '\x0c'
  | 'n' => some '\n'
  | 'r' => some '\r'
  | 't' => some '\t'
  | _ => none

/-- Parses the body of a JSON string after the opening quote; returns the
decoded content and the remainder after the closing quote.  Raw control
characters are rejected, as `JSON.parse` rejects them. -/
def parseStrBody : List Char → Option (List Char × List Char)
  | [] => none
  | c :: rest =>
    if c == '"' then some ([], rest)
    else if c == '\\' then
      match rest with
      | [] => none
      | e :: rest2 =>
        match escChar e, parseStrBody rest2 with
        | some ec, some (s, r) => some (ec :: s, r)
        | _, _ => none
    else if c.toNat < 32 then none
    else
      match parseStrBody rest with
      | some (s, r) => some (c :: s, r)
      | none => none

/-- True when every mantissa digit of a JSON number literal is zero (the
exponent cannot make a zero mantissa nonzero or vice versa). -/
def numLitIsZero (lit : String) : Bool :=
  (lit.data.takeWhile (fun c => c != 'e' && c != 'E')).all
    (fun c => !c.isDigit || c == '0')

/-- Parses a JSON number literal: optional minus, integer part without
leading zeros, optional fraction, optional exponent.  Returns the literal
text and the remainder. -/
def parseNumLit (l : List Char) : Option (List Char × List Char) :=
  let (sign, l1) :=
    match l with
    | '-' :: r => (['-'], r)
    | _ => (([] : List Char), l)
  match l1 with
  | [] => none
  | c :: _ =>
    if !c.isDigit then none
    else
      let intPart := l1.takeWhile Char.isDigit
      if intPart.length > 1 && c == '0' then none
      else
        let r1 := l1.drop intPart.length
        let fracStep : Option (List Char × List Char) :=
          match r1 with
          | '.' :: r =>
            let ds := r.takeWhile Char.isDigit
            if ds.isEmpty then none
            else some ('.' :: ds, r.drop ds.length)
          | _ => some ([], r1)
        match fracStep with
        | none => none
        | some (frac, r2) =>
          let expStep : Option (List Char × List Char) :=
            match r2 with
            | e :: r =>
              if e == 'e' || e == 'E' then
                let (es, r') :=
                  match r with
                  | s :: r'' => if s == '+' || s == '-' then ([e, s], r'') else ([e], r)
                  | [] => ([e], r)
                let ds := r'.takeWhile Char.isDigit
                if ds.isEmpty then none
                else some (es ++ ds, r'.drop ds.length)
              else some ([], r2)
            | [] => some ([], r2)
          match expStep with
          | none => none
          | some (ex, r3) => some (sign ++ intPart ++ frac ++ ex, r3)

mutual

/-- Fuel-driven recursive-descent parser for a JSON value. -/
def parseVal : Nat → List Char → Option (Json × List Char)
  | 0, _ => none
  | fuel + 1, l =>
    let l := skipWs l
    match l with
    | [] => none
    | c :: rest =>
      if c == '"' then
        match parseStrBody rest with
        | some (s, r) => some (.str (chStr s), r)
        | none => none
      else if c == '\x7b' then parseObj fuel rest
      else if c == '[' then parseArr fuel rest
      else if lcStartsWith ['t', 'r', 'u', 'e'] l then some (.bool true, l.drop 4)
      else if lcStartsWith ['f', 'a', 'l', 's', 'e'] l then some (.bool false, l.drop 5)
      else if lcStartsWith ['n', 'u', 'l', 'l'] l then some (.null, l.drop 4)
      else
        match parseNumLit l with
        | some (lit, r) => some (.num (chStr lit), r)
        | none => none

/-- Parses the inside of a JSON object after the opening brace. -/
def parseObj : Nat → List Char → Option (Json × List Char)
  | 0, _ => none
  | fuel + 1, l =>
    match skipWs l with
    | '\x7d' :: rest => some (.obj [], rest)
    | l' =>
      match parseMembers fuel l' with
      | some (fs, r) => some (.obj fs, r)
      | none => none

/-- Parses one or more `"key": value` members, consuming the closing
brace. -/
def parseMembers : Nat → List Char → Option (List (String × Json) × List Char)
  | 0, _ => none
  | fuel + 1, l =>
    match skipWs l with
    | '"' :: rest =>
      match parseStrBody rest with
      | none => none
      | some (k, r) =>
        match skipWs r with
        | ':' :: r2 =>
          match parseVal fuel r2 with
          | none => none
          | some (v, r3) =>
            match skipWs r3 with
            | ',' :: r4 =>
              match parseMembers fuel r4 with
              | some (ms, r5) => some ((chStr k, v) :: ms, r5)
              | none => none
            | '\x7d' :: r4 => some ([(chStr k, v)], r4)
            | _ => none
        | _ => none
    | _ => none

/-- Parses the inside of a JSON array after the opening bracket. -/
def parseArr : Nat → List Char → Option (Json × List Char)
  | 0, _ => none
  | fuel + 1, l =>
    match skipWs l with
    | ']' :: rest => some (.arr [], rest)
    | l' =>
      match parseElems fuel l' with
      | some (es, r) => some (.arr es, r)
      | none => none

/-- Parses one or more array elements, consuming the closing bracket. -/
def parseElems : Nat → List Char → Option (List Json × List Char)
  | 0, _ => none
  | fuel + 1, l =>
    match parseVal fuel l with
    | none => none
    | some (v, r) =>
      match skipWs r with
      | ',' :: r2 =>
        match parseElems fuel r2 with
        | some (es, r3) => some (v :: es, r3)
        | none => none
      | ']' :: r2 => some ([v], r2)
      | _ => none

end

/-- Model of `JSON.parse`: `none` where `JSON.parse` would throw. -/
def jsonParse (s : String) : Option Json :=
  match parseVal (s.data.length + 1) s.data with
  | some (v, r) => if (skipWs r).isEmpty then some v else none
  | none => none

/-- Property read `value.name` in JavaScript, for an object: the last
binding of a duplicated key wins, as in `JSON.parse`. -/
def objGet (k : String) : List (String × Json) → Option Json
  | [] => none
  | (k', v) :: rest =>
    match objGet k rest with
    | some v' => some v'
    | none => if k' == k then some v else none

/-- Property read `value.name` for any non-null JavaScript value: objects
look the key up, every other value yields `undefined` (here `none`).
Property reads on `null` throw and are handled at each use site. -/
def jsGet (v : Json) (k : String) : Option Json :=
  match v with
  | .obj fs => objGet k fs
  | _ => none

/-- JavaScript truthiness of a possibly-undefined value. -/
def jsTruthy : Option Json → Bool
  | none => false
  | some (.str s) => s != ""
  | some (.num lit) => !numLitIsZero lit
  | some (.bool b) => b
  | some .null => false
  | some (.arr _) => true
  | some (.obj _) => true

mutual

/-- JavaScript string coercion of a value, as used by `+=`.  Only string
values reach this point in the verified inputs; the other branches follow
the standard coercions. -/
def jsToStr : Json → String
  | .str s => s
  | .num lit => lit
  | .bool true => "true"
  | .bool false => "false"
  | .null => "null"
  | .arr es => jsJoin es
  | .obj _ => "[object Object]"

/-- Array-to-string coercion: elements joined with commas. -/
def jsJoin : List Json → String
  | [] => ""
  | [v] => jsToStr v
  | v :: rest => jsToStr v ++ "," ++ jsJoin rest

end

def jsToStrOpt : Option Json → List Char
  | some v => (jsToStr v).data
  | none => []

/-- Whether `data.type` strictly equals the given string literal. -/
def typeIs (d : Json) (s : String) : Bool :=
  match jsGet d "type" with
  | some (.str t) => t == s
  | _ => false

/-- The branch of `startAiAnalysis` for a trimmed line starting with
`"0:"`: parse the remainder as JSON; on `type` of `text-delta` or `text`
with a truthy payload field, append it; a parse failure (or a property
read throwing on `null`, which the same `try` swallows) skips the line. -/
def zeroHandle (acc : List Char) (jsonStr : List Char) : List Char :=
  match jsonParse (chStr jsonStr) with
  | none => acc
  | some .null => acc
  | some d =>
    let dv := jsGet d "textDelta"
    let xv := jsGet d "text"
    if typeIs d "text-delta" && jsTruthy dv then acc ++ jsToStrOpt dv
    else if typeIs d "text" && jsTruthy xv then acc ++ jsToStrOpt xv
    else acc

/-- The branch for a trimmed line starting with `"data: "`: parse the
remainder as JSON and append the first truthy of `textDelta` and `text`;
if parsing (or the property read, on `null`) throws, append the raw
remainder when non-empty. -/
def dataHandle (acc : List Char) (rem : List Char) : List Char :=
  let plain := if rem.isEmpty then acc else acc ++ rem
  match jsonParse (chStr rem) with
  | none => plain
  | some .null => plain
  | some d =>
    let dv := jsGet d "textDelta"
    let xv := jsGet d "text"
    if jsTruthy dv || jsTruthy xv then
      acc ++ (if jsTruthy dv then jsToStrOpt dv else jsToStrOpt xv)
    else acc

/-- Per-line step of the stream loop in `startAiAnalysis`: trim, skip
empty lines, dispatch on the `"0:"` and `"data: "` tags, and otherwise
append the whole trimmed line plus a space. -/
def processLine (acc line : List Char) : List Char :=
  let t := trimChars line
  if t.isEmpty then acc
  else if lcStartsWith ['0', ':'] t then zeroHandle acc (t.drop 2)
  else if lcStartsWith ("data: ".data) t then dataHandle acc (t.drop 6)
  else acc ++ t ++ [' ']

/-- Processes one decoded chunk: split on newlines, then handle each line
in order.  Lines are split per chunk — a line left incomplete at a chunk
boundary is processed on its own, exactly as in the source. -/
def processChunk (acc chunk : List Char) : List Char :=
  (splitOnChar '\n' chunk).foldl processLine acc

/-- Accumulated text after consuming a whole list of decoded chunks. -/
def consumeChunksAcc (chunks : List (List Char)) : List Char :=
  chunks.foldl processChunk []

/-- The stream consumer of `startAiAnalysis` as a function from the list
of decoded chunks to the final accumulated text. -/
def consumeStream (chunks : List String) : String :=
  chStr (consumeChunksAcc (chunks.map String.data))

/-! Model of the two global regexes and the sentence split used by
`extractKeyFindings`.  The bullet regex is a bullet-class character, then
greedy whitespace, then a lazy one-or-more of non-newline characters with
a lookahead for a newline or the end of input; the numbered regex replaces
the leading class with digits followed by a dot. -/

/-- Characters of the bullet marker class. -/
def isBullet (c : Char) : Bool := c == '•' || c == '-' || c == '*'

/-- After the greedy whitespace of the regex consumed `k` characters,
the lazy dot-plus can start here iff a non-newline character remains. -/
def goodAt (rest : List Char) (k : Nat) : Bool :=
  match rest.drop k with
  | [] => false
  | c :: _ => c != '\n'

/-- Backtracking of the greedy whitespace: try the longest prefix first,
then shorter ones, returning the first length at which the lazy dot-plus
with its lookahead can match. -/
def findWsLen (rest : List Char) : Nat → Option Nat
  | 0 => if goodAt rest 0 then some 0 else none
  | k + 1 => if goodAt rest (k + 1) then some (k + 1) else findWsLen rest k

/-- Attempts the tail `backslash-s-star (.+?) (?= newline or end)` of both
regexes at the current position; returns the consumed whitespace length
and the captured content.  The content runs to the character before the
next newline (or the end), which is where the lazy dot-plus first
satisfies the lookahead. -/
def tailMatch (rest : List Char) : Option (Nat × List Char) :=
  match findWsLen rest ((rest.takeWhile isJsWs).length) with
  | none => none
  | some k => some (k, (rest.drop k).takeWhile (fun c => c != '\n'))

/-- All matches of the bullet regex, scanning left to right and resuming
after each full match, exactly as a global `match` does.  The fuel is an
upper bound on the scan position; it never runs out when started at the
input length, because every step advances by at least one character. -/
def bulletScanF : Nat → List Char → List (List Char)
  | 0, _ => []
  | _, [] => []
  | fuel + 1, c :: rest =>
    if isBullet c then
      match tailMatch rest with
      | some (k, content) =>
        (c :: (rest.take k ++ content)) :: bulletScanF fuel (rest.drop (k + content.length))
      | none => bulletScanF fuel rest
    else bulletScanF fuel rest

def bulletScan (l : List Char) : List (List Char) := bulletScanF l.length l

/-- All matches of the numbered regex `digits dot whitespace content`:
the greedy digit run must be followed by a literal dot (backtracking
inside the digit run cannot produce the dot at an earlier position). -/
def numberScanF : Nat → List Char → List (List Char)
  | 0, _ => []
  | _, [] => []
  | fuel + 1, c :: rest =>
    if c.isDigit then
      let ds := rest.takeWhile Char.isDigit
      match rest.drop ds.length with
      | '.' :: rest2 =>
        match tailMatch rest2 with
        | some (k, content) =>
          (c :: ds ++ '.' :: (rest2.take k ++ content)) ::
            numberScanF fuel (rest2.drop (k + content.length))
        | none => numberScanF fuel rest
      | _ => numberScanF fuel rest
    else numberScanF fuel rest

def numberScan (l : List Char) : List (List Char) := numberScanF l.length l

/-- Strips the leading bullet marker and all following whitespace from a
bullet match (the anchored `replace` regex), then trims. -/
def bulletStrip (m : List Char) : List Char :=
  trimChars ((m.drop 1).dropWhile isJsWs)

/-- Strips the leading digit run, the dot and all following whitespace
from a numbered match, then trims. -/
def numberStrip (m : List Char) : List Char :=
  trimChars (((m.dropWhile Char.isDigit).drop 1).dropWhile isJsWs)

/-- Model of `"...".split(/[.!?]+/)`: each maximal run of sentence
terminators is one separator.  Fuel as in `bulletScanF`. -/
def splitSentencesF : Nat → List Char → List (List Char)
  | 0, _ => [[]]
  | _, [] => [[]]
  | fuel + 1, c :: rest =>
    if c == '.' || c == '!' || c == '?' then
      [] :: splitSentencesF fuel
        (rest.dropWhile (fun c' => c' == '.' || c' == '!' || c' == '?'))
    else
      match splitSentencesF fuel rest with
      | [] => [[c]]
      | l :: ls => (c :: l) :: ls

def splitSentences (l : List Char) : List (List Char) := splitSentencesF l.length l

/-- The `extractKeyFindings` helper of the results page: bullet matches
first (capped at five), numbered matches topping up while fewer than five
were collected, long sentences only when the first two steps produced
nothing, and a fixed default entry when everything is empty. -/
def extractKeyFindings (text : String) : List String :=
  let tc := text.data
  let bullets := ((bulletScan tc).map bulletStrip).take 5
  let afterNumbers :=
    if (numberScan tc).isEmpty then bullets
    else if bullets.length < 5 then
      bullets ++ ((numberScan tc).map numberStrip).take (5 - bullets.length)
    else bullets
  let afterSentences :=
    if afterNumbers.isEmpty then
      (((splitSentences tc).filter (fun s => (trimChars s).length > 20)).take 4).map
        trimChars
    else afterNumbers
  if afterSentences.isEmpty then ["AI analysis completed"]
  else afterSentences.map chStr

/-! Data model of the status-reconciliation side: the client stage enum,
the in-memory pixel-data store of `dicom-processor.ts`, and the shapes of
the FastAPI responses consumed by `getStatus`. -/

/-- The six client-facing processing stages (`ProcessingStage`). -/
inductive ClientStage where
  | queued
  | normalizing
  | compressing
  | analyzing
  | completed
  | error
deriving DecidableEq, Repr

/-- Flask metadata block stored with each payload (`FlaskMetadata`). -/
structure FlaskMetadata where
  num_slices : Nat
  num_deltas_included : Nat
  processed_at : String
deriving DecidableEq, Repr

/-- The stored analyzable payload (`PixelDataJson`). -/
structure PixelDataJson where
  base64Png : String
  slices : Nat
  modality : String
  prompt : Option String
  metadata : FlaskMetadata
deriving DecidableEq, Repr

/-- The process-wide `pixelDataStore` map, keyed by scan id, in insertion
order as a JavaScript `Map` keeps it. -/
abbrev PixelStore := List (String × PixelDataJson)

/-- Model of `pixelDataStore.get` / `getPixelData`. -/
def storeGet : PixelStore → String → Option PixelDataJson
  | [], _ => none
  | (k', v) :: rest, k => if k' == k then some v else storeGet rest k

/-- Model of `pixelDataStore.set` / `storePixelData`: overwrite in place,
or append a new key, as a JavaScript `Map` does. -/
def storeSet (s : PixelStore) (k : String) (v : PixelDataJson) : PixelStore :=
  if (storeGet s k).isSome then
    s.map (fun p => if p.1 == k then (k, v) else p)
  else s ++ [(k, v)]

/-- Model of `getAllStoredScanIds`: the keys in map order. -/
def storeKeys (s : PixelStore) : List String := s.map Prod.fst

/-- The fields of the FastAPI `GET /result/job_id` response that
`getStatus` reads.  `error` is the raw `error` field (absent, empty or a
message); `numSlices` is `metrics.num_slices` when that field is a
number; `completedAt` is `completed_at`. -/
structure JobResult where
  status : String
  error : Option String
  numSlices : Option Nat
  completedAt : Option String
deriving Repr

/-- The fields of the bundle metadata response that `getStatus` reads:
the file listing, `metadata.bundle.montage_file` when `metadata.bundle`
is an object carrying it, and `metadata.prompt` when it is a string. -/
structure BundleMeta where
  files : List String
  montageFile : Option String
  prompt : Option String
deriving Repr

/-- The network outcomes one call to `getStatus` can observe, each
pre-resolved: the job-result call, the bundle-metadata call, and the
per-file artifact download (a function of the chosen file name).  An
`Except.error` value is a thrown error carrying its message. -/
structure GetStatusEnv where
  jobResult : Except String JobResult
  bundleMeta : Except String BundleMeta
  fetchFile : String → Except String String
  nowIso : String

/-- The `StatusResponse` produced by `getStatus`, with progress as exact
tenths (the source literals 0.1 / 0.5 / 0.7 / 0.8 / 0). -/
structure StatusData where
  scanId : String
  stage : ClientStage
  progressTenths : Nat
  etaSeconds : Option Nat
  errorMessage : Option String
deriving DecidableEq, Repr

/-- Result of one modelled `getStatus` call: the response, the store
after the call, and how many bundle-related network fetches (listing or
artifact bytes) the call performed. -/
structure GetStatusResult where
  status : StatusData
  store : PixelStore
  bundleFetches : Nat
deriving DecidableEq, Repr

/-- Representative-image selection: default `montage_overview.png`,
overridden by a truthy `metadata.bundle.montage_file`, then checked
against the listing with a fallback to the first `.png` entry. -/
def selectBaseImage (bm : BundleMeta) : String :=
  let base :=
    match bm.montageFile with
    | some m => if m == "" then "montage_overview.png" else m
    | none => "montage_overview.png"
  if bm.files.contains base then base
  else
    match bm.files.find? (fun f => lcEndsWith (".png".data) f.data) with
    | some f => f
    | none => "montage_overview.png"

/-- The payload stored on successful materialization, following the
object literal in the `complete` branch of `getStatus`. -/
def mkPixelData (jr : JobResult) (bm : BundleMeta) (b64 : String) (nowIso : String) :
    PixelDataJson :=
  let numSlices := jr.numSlices.getD 0
  { base64Png := b64
    slices := numSlices
    modality := "CT"
    prompt := some
      (match bm.prompt with
       | some p => if p == "" then "Please analyze this CT scan series." else p
       | none => "Please analyze this CT scan series.")
    metadata :=
      { num_slices := numSlices
        num_deltas_included := 0
        processed_at :=
          match jr.completedAt with
          | some c => if c == "" then nowIso else c
          | none => nowIso } }

/-- JavaScript `jobResult.error || null`: an absent or empty error field
becomes null. -/
def jsErrOrNull : Option String → Option String
  | some e => if e == "" then none else some e
  | none => none

/-- Stage, progress, store and bundle-fetch count computed by the switch
statement of `getStatus` for a successfully fetched job result. -/
def statusCore (scanId : String) (store : PixelStore) (env : GetStatusEnv)
    (jr : JobResult) : ClientStage × Nat × PixelStore × Nat :=
  if jr.status == "pending" then (ClientStage.queued, 1, store, 0)
  else if jr.status == "processing" then (ClientStage.compressing, 5, store, 0)
  else if jr.status == "complete" then
    match storeGet store scanId with
    | some _ => (ClientStage.analyzing, 8, store, 0)
    | none =>
      match env.bundleMeta with
      | .error _ => (ClientStage.compressing, 7, store, 1)
      | .ok bm =>
        match env.fetchFile (selectBaseImage bm) with
        | .error _ => (ClientStage.compressing, 7, store, 2)
        | .ok b64 =>
          (ClientStage.analyzing, 8,
            storeSet store scanId (mkPixelData jr bm b64 env.nowIso), 2)
  else if jr.status == "failed" then (ClientStage.error, 0, store, 0)
  else (ClientStage.queued, 0, store, 0)

/-- Model of `getStatus` of `src/lib/api.ts`: a thrown job-result error
whose message contains `404` is converted into an `error`-stage response
with the fixed message `Job not found`; any other thrown error is
re-thrown; otherwise the switch maps the remote state, materializing the
bundle on `complete` when no payload is stored yet. -/
def getStatusModel (scanId : String) (store : PixelStore) (env : GetStatusEnv) :
    Except String GetStatusResult :=
  match env.jobResult with
  | .error m =>
    if containsSub ("404".data) m.data then
      .ok ⟨⟨scanId, ClientStage.error, 0, none, some "Job not found"⟩, store, 0⟩
    else .error m
  | .ok jr =>
    let c := statusCore scanId store env jr
    .ok ⟨⟨scanId, c.1, c.2.1, none, jsErrOrNull jr.error⟩, c.2.2.1, c.2.2.2⟩

/-- The stage/progress pair of a poll outcome, when the poll did not
throw. -/
def stageProgOf : Except String GetStatusResult → Option (ClientStage × Nat)
  | .ok r => some (r.status.stage, r.status.progressTenths)
  | .error _ => none

/-- Whether the materialization attempt inside the `complete` branch
would succeed for this environment (bundle listing and artifact bytes
both retrievable). -/
def materializeSucceeds (env : GetStatusEnv) : Bool :=
  match env.bundleMeta with
  | .error _ => false
  | .ok bm =>
    match env.fetchFile (selectBaseImage bm) with
    | .ok _ => true
    | .error _ => false

/-- Payload readiness after the poll's materialization attempt: either a
payload was already stored, or the attempt succeeds now. -/
def payloadAvailable (scanId : String) (store : PixelStore) (env : GetStatusEnv) : Bool :=
  (storeGet store scanId).isSome || materializeSucceeds env

/-! Model of the results page (`ResultsPage` component): the one-shot
AI-analysis trigger, the polling loop's observed stage sequence, and the
stream-session wrap-up that may synthesize a `ResultsResponse`. -/

/-- Observable events of one poll tick's trigger check, in program
order: the `streamStartedRef.current = true` write and the
`startAiAnalysis` call. -/
inductive TrigEv where
  | setLatch
  | startEffect
deriving DecidableEq, Repr

/-- One poll tick's trigger logic: when the snapshot reports `analyzing`
and the latch is clear, the latch is written first and the effect started
second, exactly the statement order of the source. -/
def pollTrigger (started : Bool) (stage : ClientStage) : Bool × List TrigEv :=
  if stage = ClientStage.analyzing ∧ started = false then
    (true, [TrigEv.setLatch, TrigEv.startEffect])
  else (started, [])

/-- Event trace of a whole sequence of poll ticks, threading the latch. -/
def runTrigger (started : Bool) : List ClientStage → List TrigEv
  | [] => []
  | s :: rest =>
    let step := pollTrigger started s
    step.2 ++ runTrigger step.1 rest

/-- The stage sequence a session observes while polling one job: each
tick runs `getStatus` against the current store; a thrown poll leaves the
snapshot unchanged and polling continues; a `completed` or `error`
snapshot is terminal — the interval is cleared and no further poll
happens. -/
def observeStages (scanId : String) : PixelStore → List GetStatusEnv → List ClientStage
  | _, [] => []
  | store, e :: rest =>
    match getStatusModel scanId store e with
    | .error _ => observeStages scanId store rest
    | .ok r =>
      if r.status.stage = ClientStage.completed ∨ r.status.stage = ClientStage.error then
        [r.status.stage]
      else r.status.stage :: observeStages scanId r.store rest

/-- Checker for the claimed sequence invariant, threading whether
`compressing` has been observed: a `completed` or `error` entry must be
last, and `queued` must not appear after `compressing`. -/
def goodFrom (seenCompressing : Bool) : List ClientStage → Bool
  | [] => true
  | s :: rest =>
    if s = ClientStage.completed ∨ s = ClientStage.error then rest.isEmpty
    else if s = ClientStage.queued then
      if seenCompressing then false else goodFrom seenCompressing rest
    else goodFrom (if s = ClientStage.compressing then true else seenCompressing) rest

def goodSeq (l : List ClientStage) : Bool := goodFrom false l

/-- The remote statuses of a poll-environment list, defined when every
tick's job-result call succeeded. -/
def statusesOf : List GetStatusEnv → Option (List String)
  | [] => some []
  | e :: rest =>
    match e.jobResult, statusesOf rest with
    | .ok jr, some ss => some (jr.status :: ss)
    | _, _ => none

/-- The four documented remote job states. -/
def knownStatus (s : String) : Bool :=
  s == "pending" || s == "processing" || s == "complete" || s == "failed"

/-- Forward steps of the remote service's lifecycle: `pending` may move
anywhere, `processing` may not regress to `pending`, and `complete` and
`failed` are final. -/
def remoteStep (s s' : String) : Bool :=
  if s == "pending" then knownStatus s'
  else if s == "processing" then
    s' == "processing" || s' == "complete" || s' == "failed"
  else if s == "complete" then s' == "complete"
  else if s == "failed" then s' == "failed"
  else false

/-- A remote status sequence that only uses the four documented states
and never regresses. -/
def chainOk : List String → Bool
  | [] => true
  | [s] => knownStatus s
  | s :: s' :: rest => knownStatus s && remoteStep s s' && chainOk (s' :: rest)

/-- Page-level state touched by one `pollStatus` call that matters here:
the latest status snapshot and the surfaced error message. -/
structure PageState where
  status : Option StatusData
  errorMsg : Option String
deriving DecidableEq, Repr

/-- One `pollStatus` call: on success the snapshot is replaced and the
error banner cleared; on a thrown poll the message is surfaced and the
snapshot left untouched. -/
def pollTickState (scanId : String) (store : PixelStore) (st : PageState)
    (env : GetStatusEnv) : PageState × PixelStore :=
  match getStatusModel scanId store env with
  | .ok r => (⟨some r.status, none⟩, r.store)
  | .error m => (⟨st.status, some m⟩, store)

/-- Whether the polling interval keeps running after this state: the
interval callback clears itself only on a `completed` or `error`
snapshot. -/
def keepsPolling (st : PageState) : Bool :=
  match st.status with
  | some sd => !(sd.stage = ClientStage.completed ∨ sd.stage = ClientStage.error : Bool)
  | none => true

/-- The final `ResultsResponse` synthesized from a finished stream (the
`streamedResults` literal).  `confidencePct` and `compressionRatioPct`
encode the source constants 0.85 and 0.2 as exact hundredths. -/
structure ResultRecord where
  scanId : String
  diagnosisSummary : String
  confidencePct : Nat
  keyFindings : List String
  compressedPreviewUrl : String
  modality : String
  slicesProcessed : Nat
  compressionRatioPct : Nat
deriving DecidableEq, Repr

/-- How one streaming session ends: either the reader reaches `done`
after delivering the chunks, or a fatal error is thrown (a non-ok
response, a missing reader, or a failed read) after some prefix of
chunks was already processed. -/
inductive StreamOutcome where
  | ok (chunks : List String)
  | fatal (chunksBefore : List String) (msg : String)

/-- Observable result of one `startAiAnalysis` run. -/
structure AiRunResult where
  accumulated : String
  synthesized : Option ResultRecord
  errorSet : Option String
  isStreaming : Bool
deriving DecidableEq, Repr

/-- Model of `startAiAnalysis`: on normal stream end, a result record is
synthesized from the accumulated text when it is non-empty and no result
exists yet; when the session throws, the catch block only surfaces the
error message — it synthesizes nothing, whatever text was accumulated. -/
def startAiAnalysisModel (scanId : String) (priorResults : Bool)
    (o : StreamOutcome) : AiRunResult :=
  match o with
  | .ok chunks =>
    let acc := chStr (consumeChunksAcc (chunks.map String.data))
    let synth :=
      if acc ≠ "" ∧ priorResults = false then
        some
          { scanId := scanId
            diagnosisSummary := acc
            confidencePct := 85
            keyFindings := extractKeyFindings acc
            compressedPreviewUrl := "/mock/compressed-image.png"
            modality := "MRI"
            slicesProcessed := 256
            compressionRatioPct := 20 }
      else none
    ⟨acc, synth, none, false⟩
  | .fatal chunks msg =>
    let acc := chStr (consumeChunksAcc (chunks.map String.data))
    ⟨acc, none, some ("AI analysis failed: " ++ msg), false⟩

/-! Model of the `POST /api/analyze` route handler. -/

/-- The responses the analyze route can produce before or instead of
streaming. -/
inductive AnalyzeResponse where
  | badRequest
  | notFound (requestedScanId : String) (availableScanIds : List String)
  | streamStarted (prompt : String) (image : String)
deriving DecidableEq, Repr

/-- HTTP status code of each analyze-route response. -/
def analyzeHttpStatus : AnalyzeResponse → Nat
  | .badRequest => 400
  | .notFound _ _ => 404
  | .streamStarted _ _ => 200

/-- The default prompt of the analyze route (abbreviated to its first
line; only its selection, not its text, matters to any claim). -/
def defaultAnalyzePrompt : String :=
  "Analyze this scan image and provide ONLY a brief diagnosis and key bullet points."

/-- Model of the analyze route's `POST` handler: a missing or falsy
`scanId` is a 400; an id with no stored pixel data is a 404 naming the
requested id and the stored ids; otherwise the AI stream is started.
The handler never writes to the store. -/
def analyzePOST (scanId : Option String) (store : PixelStore) :
    AnalyzeResponse × PixelStore :=
  match scanId with
  | none => (.badRequest, store)
  | some s =>
    if s == "" then (.badRequest, store)
    else
      match storeGet store s with
      | none => (.notFound s (storeKeys store), store)
      | some pd =>
        let prompt :=
          match pd.prompt with
          | some p => if p == "" then defaultAnalyzePrompt else p
          | none => defaultAnalyzePrompt
        (.streamStarted prompt pd.base64Png, store)

/-- Head of a status list is not `pending` (vacuously true when empty);
the invariant carried once `compressing` has been observed. -/
def headNotPending : List String → Bool
  | [] => true
  | s :: _ => s != "pending"

/-- The chain constraint between a status and the head of its successor
list. -/
def headStep (s : String) : List String → Bool
  | [] => true
  | s' :: _ => remoteStep s s'

/-! Concrete fixtures used by witnesses and counterexamples. -/

/-- A poll whose remote state is `pending` and whose bundle calls would
fail (they are never consulted for this state). -/
def envPendingW : GetStatusEnv :=
  ⟨.ok ⟨"pending", none, none, none⟩, .error "bundle not ready",
    fun _ => .error "artifact not ready", "t0"⟩

/-- A poll whose remote state is `processing`. -/
def envProcW : GetStatusEnv :=
  ⟨.ok ⟨"processing", none, none, none⟩, .error "bundle not ready",
    fun _ => .error "artifact not ready", "t0"⟩

/-- A poll reporting an undocumented remote state. -/
def envWeirdW : GetStatusEnv :=
  ⟨.ok ⟨"archived", none, none, none⟩, .error "bundle not ready",
    fun _ => .error "artifact not ready", "t0"⟩

/-- A poll whose remote state is `complete` with a materializable
bundle. -/
def envCompleteW : GetStatusEnv :=
  ⟨.ok ⟨"complete", none, some 3, some "t1"⟩,
    .ok ⟨["montage_overview.png"], none, none⟩, fun _ => .ok "QUJD", "t0"⟩

/-- A poll whose remote state is `failed` with no error field. -/
def envFailedW : GetStatusEnv :=
  ⟨.ok ⟨"failed", none, none, none⟩, .error "bundle not ready",
    fun _ => .error "artifact not ready", "t0"⟩

/-- A poll whose remote state is `failed` carrying an error message. -/
def envFailedVerbW : GetStatusEnv :=
  ⟨.ok ⟨"failed", some "compression crashed", none, none⟩, .error "bundle not ready",
    fun _ => .error "artifact not ready", "t0"⟩

/-- A poll whose job-result fetch threw with an HTTP 404 message. -/
def env404W : GetStatusEnv :=
  ⟨.error "HTTP 404: job not found", .error "bundle not ready",
    fun _ => .error "artifact not ready", "t0"⟩

/-- A poll whose job-result fetch threw with a non-404 message. -/
def envNetW : GetStatusEnv :=
  ⟨.error "connection refused", .error "bundle not ready",
    fun _ => .error "artifact not ready", "t0"⟩

/-- A page snapshot currently at `compressing`. -/
def stCompressingW : PageState :=
  ⟨some ⟨"job1", ClientStage.compressing, 5, none, none⟩, none⟩

/-- A stored payload used by the analyze-route witness. -/
def pdW : PixelDataJson :=
  ⟨"QUJD", 3, "CT", some "Please analyze this CT scan series.", ⟨3, 0, "t1"⟩⟩

/-- The result of the first `complete` poll of the idempotence witness:
`analyzing` at 0.8, the payload materialized into the store, two bundle
fetches (listing plus artifact). -/
def getStatusFirstW : GetStatusResult :=
  ⟨⟨"job1", ClientStage.analyzing, 8, none, none⟩,
    [("job1", mkPixelData ⟨"complete", none, some 3, some "t1"⟩
        ⟨["montage_overview.png"], none, none⟩ "QUJD" "t0")], 2⟩

/-! Helper lemmas about the embedded definitions. -/

theorem getStatusModel_pending {scanId : String} {store : PixelStore}
    {env : GetStatusEnv} {jr : JobResult} (hj : env.jobResult = .ok jr)
    (hst : jr.status = "pending") :
    getStatusModel scanId store env =
      .ok ⟨⟨scanId, ClientStage.queued, 1, none, jsErrOrNull jr.error⟩, store, 0⟩ := by
  simp [getStatusModel, hj, statusCore, hst]

theorem getStatusModel_processing {scanId : String} {store : PixelStore}
    {env : GetStatusEnv} {jr : JobResult} (hj : env.jobResult = .ok jr)
    (hst : jr.status = "processing") :
    getStatusModel scanId store env =
      .ok ⟨⟨scanId, ClientStage.compressing, 5, none, jsErrOrNull jr.error⟩, store, 0⟩ := by
  simp [getStatusModel, hj, statusCore, hst]

theorem getStatusModel_failed {scanId : String} {store : PixelStore}
    {env : GetStatusEnv} {jr : JobResult} (hj : env.jobResult = .ok jr)
    (hst : jr.status = "failed") :
    getStatusModel scanId store env =
      .ok ⟨⟨scanId, ClientStage.error, 0, none, jsErrOrNull jr.error⟩, store, 0⟩ := by
  simp [getStatusModel, hj, statusCore, hst]

theorem getStatusModel_unknown {scanId : String} {store : PixelStore}
    {env : GetStatusEnv} {jr : JobResult} (hj : env.jobResult = .ok jr)
    (h1 : jr.status ≠ "pending") (h2 : jr.status ≠ "processing")
    (h3 : jr.status ≠ "complete") (h4 : jr.status ≠ "failed") :
    getStatusModel scanId store env =
      .ok ⟨⟨scanId, ClientStage.queued, 0, none, jsErrOrNull jr.error⟩, store, 0⟩ := by
  simp [getStatusModel, hj, statusCore, h1, h2, h3, h4]

theorem getStatusModel_complete_stored {scanId : String} {store : PixelStore}
    {env : GetStatusEnv} {jr : JobResult} {pd : PixelDataJson}
    (hj : env.jobResult = .ok jr) (hst : jr.status = "complete")
    (hsg : storeGet store scanId = some pd) :
    getStatusModel scanId store env =
      .ok ⟨⟨scanId, ClientStage.analyzing, 8, none, jsErrOrNull jr.error⟩, store, 0⟩ := by
  simp [getStatusModel, hj, statusCore, hst, hsg]

theorem getStatusModel_complete_noBundle {scanId : String} {store : PixelStore}
    {env : GetStatusEnv} {jr : JobResult} {m : String}
    (hj : env.jobResult = .ok jr) (hst : jr.status = "complete")
    (hsg : storeGet store scanId = none) (hb : env.bundleMeta = .error m) :
    getStatusModel scanId store env =
      .ok ⟨⟨scanId, ClientStage.compressing, 7, none, jsErrOrNull jr.error⟩, store, 1⟩ := by
  simp [getStatusModel, hj, statusCore, hst, hsg, hb]

theorem getStatusModel_complete_noFile {scanId : String} {store : PixelStore}
    {env : GetStatusEnv} {jr : JobResult} {bm : BundleMeta} {m : String}
    (hj : env.jobResult = .ok jr) (hst : jr.status = "complete")
    (hsg : storeGet store scanId = none) (hb : env.bundleMeta = .ok bm)
    (hf : env.fetchFile (selectBaseImage bm) = .error m) :
    getStatusModel scanId store env =
      .ok ⟨⟨scanId, ClientStage.compressing, 7, none, jsErrOrNull jr.error⟩, store, 2⟩ := by
  simp [getStatusModel, hj, statusCore, hst, hsg, hb, hf]

theorem getStatusModel_complete_mat {scanId : String} {store : PixelStore}
    {env : GetStatusEnv} {jr : JobResult} {bm : BundleMeta} {b64 : String}
    (hj : env.jobResult = .ok jr) (hst : jr.status = "complete")
    (hsg : storeGet store scanId = none) (hb : env.bundleMeta = .ok bm)
    (hf : env.fetchFile (selectBaseImage bm) = .ok b64) :
    getStatusModel scanId store env =
      .ok ⟨⟨scanId, ClientStage.analyzing, 8, none, jsErrOrNull jr.error⟩,
        storeSet store scanId (mkPixelData jr bm b64 env.nowIso), 2⟩ := by
  simp [getStatusModel, hj, statusCore, hst, hsg, hb, hf]

theorem storeGet_map_overwrite (k : String) (v : PixelDataJson) :
    ∀ s : PixelStore, (storeGet s k).isSome = true →
      storeGet (s.map (fun p => if p.1 == k then (k, v) else p)) k = some v := by
  intro s
  induction s with
  | nil => intro h; simp [storeGet] at h
  | cons p rest ih =>
    obtain ⟨k', v'⟩ := p
    intro h
    rw [storeGet] at h
    by_cases hk : (k' == k) = true
    · simp only [List.map_cons]
      have hhead : (if (k' == k) = true then ((k, v) : String × PixelDataJson)
          else (k', v')) = (k, v) := if_pos hk
      simp only [hhead]
      simp [storeGet]
    · rw [if_neg hk] at h
      simp only [List.map_cons]
      have hhead : (if (k' == k) = true then ((k, v) : String × PixelDataJson)
          else (k', v')) = (k', v') := if_neg hk
      simp only [hhead]
      rw [storeGet, if_neg hk]
      exact ih h

theorem storeGet_append_new (k : String) (v : PixelDataJson) :
    ∀ s : PixelStore, (storeGet s k).isSome = false →
      storeGet (s ++ [(k, v)]) k = some v := by
  intro s
  induction s with
  | nil => intro _; simp [storeGet]
  | cons p rest ih =>
    obtain ⟨k', v'⟩ := p
    intro h
    rw [storeGet] at h
    rw [List.cons_append, storeGet]
    by_cases hk : (k' == k) = true
    · rw [if_pos hk] at h
      simp at h
    · rw [if_neg hk] at h
      rw [if_neg hk]
      exact ih h

theorem storeGet_storeSet_self (s : PixelStore) (k : String) (v : PixelDataJson) :
    storeGet (storeSet s k v) k = some v := by
  rw [storeSet]
  by_cases hs : (storeGet s k).isSome = true
  · rw [if_pos hs]
    exact storeGet_map_overwrite k v s hs
  · rw [if_neg hs]
    exact storeGet_append_new k v s (by simpa using hs)

theorem runTrigger_latched (stages : List ClientStage) : runTrigger true stages = [] := by
  induction stages with
  | nil => rfl
  | cons s rest ih => simp [runTrigger, pollTrigger, ih]

theorem knownStatus_cases {s : String} (h : knownStatus s = true) :
    s = "pending" ∨ s = "processing" ∨ s = "complete" ∨ s = "failed" := by
  simp only [knownStatus, Bool.or_eq_true, beq_iff_eq] at h
  tauto

theorem chainOk_cons {s : String} {ss : List String} (h : chainOk (s :: ss) = true) :
    knownStatus s = true ∧ chainOk ss = true ∧ headStep s ss = true := by
  cases ss with
  | nil => exact ⟨h, rfl, rfl⟩
  | cons s' r =>
    simp only [chainOk, Bool.and_eq_true] at h
    exact ⟨h.1.1, h.2, h.1.2⟩

theorem headNotPending_of_step {s : String} {ss : List String}
    (hns : s ≠ "pending") (hk : knownStatus s = true) (hh : headStep s ss = true) :
    headNotPending ss = true := by
  cases ss with
  | nil => rfl
  | cons s' r =>
    simp only [headStep] at hh
    rcases knownStatus_cases hk with h | h | h | h
    · exact absurd h hns
    · subst h
      simp [remoteStep] at hh
      rcases hh with (h' | h') | h' <;> simp [headNotPending, h']
    · subst h
      simp [remoteStep] at hh
      simp [headNotPending, hh]
    · subst h
      simp [remoteStep] at hh
      simp [headNotPending, hh]

/-! Claim theorems. -/

/-- C1: for every successfully fetched remote state, the stage mapping
in `getStatus` returns exactly the table's pair — `pending` to
`queued`/0.1, `processing` to `compressing`/0.5, `complete` with an
available payload to `analyzing`/0.8, `complete` without one to
`compressing`/0.7, `failed` to `error`/0.0 — and any unrecognized remote
state maps to `queued`/0.0 as a successful poll rather than a failure
(progress in exact tenths). -/
theorem getStatus_stage_table (scanId : String) (store : PixelStore)
    (env : GetStatusEnv) (jr : JobResult) (hj : env.jobResult = .ok jr) :
    (jr.status = "pending" →
      stageProgOf (getStatusModel scanId store env) = some (ClientStage.queued, 1)) ∧
    (jr.status = "processing" →
      stageProgOf (getStatusModel scanId store env) = some (ClientStage.compressing, 5)) ∧
    (jr.status = "complete" →
      stageProgOf (getStatusModel scanId store env) =
        some (if payloadAvailable scanId store env then (ClientStage.analyzing, 8)
              else (ClientStage.compressing, 7))) ∧
    (jr.status = "failed" →
      stageProgOf (getStatusModel scanId store env) = some (ClientStage.error, 0)) ∧
    (jr.status ≠ "pending" → jr.status ≠ "processing" → jr.status ≠ "complete" →
      jr.status ≠ "failed" →
      stageProgOf (getStatusModel scanId store env) = some (ClientStage.queued, 0)) := by
  refine ⟨?_, ?_, ?_, ?_, ?_⟩
  · intro hst
    rw [getStatusModel_pending hj hst]
    rfl
  · intro hst
    rw [getStatusModel_processing hj hst]
    rfl
  · intro hst
    cases hsg : storeGet store scanId with
    | some pd =>
      rw [getStatusModel_complete_stored hj hst hsg]
      simp [stageProgOf, payloadAvailable, hsg]
    | none =>
      cases hb : env.bundleMeta with
      | error m =>
        rw [getStatusModel_complete_noBundle hj hst hsg hb]
        simp [stageProgOf, payloadAvailable, materializeSucceeds, hsg, hb]
      | ok bm =>
        cases hf : env.fetchFile (selectBaseImage bm) with
        | error m =>
          rw [getStatusModel_complete_noFile hj hst hsg hb hf]
          simp [stageProgOf, payloadAvailable, materializeSucceeds, hsg, hb, hf]
        | ok b64 =>
          rw [getStatusModel_complete_mat hj hst hsg hb hf]
          simp [stageProgOf, payloadAvailable, materializeSucceeds, hsg, hb, hf]
  · intro hst
    rw [getStatusModel_failed hj hst]
    rfl
  · intro h1 h2 h3 h4
    rw [getStatusModel_unknown hj h1 h2 h3 h4]
    rfl

/-- C1 witness: a `pending` poll maps to `queued`/0.1, and a poll
reporting the undocumented state `archived` maps to `queued`/0.0 without
failing. -/
theorem getStatus_stage_table_witness :
    stageProgOf (getStatusModel "job1" [] envPendingW) = some (ClientStage.queued, 1) ∧
    stageProgOf (getStatusModel "job1" [] envWeirdW) = some (ClientStage.queued, 0) := by
  constructor
  · exact (getStatus_stage_table "job1" [] envPendingW ⟨"pending", none, none, none⟩ rfl).1 rfl
  · exact (getStatus_stage_table "job1" [] envWeirdW ⟨"archived", none, none, none⟩
      rfl).2.2.2.2 (by decide) (by decide) (by decide) (by decide)

/-- C2 counterexample: the two-chunk input whose first line is split
mid-JSON across the chunk boundary does not accumulate to
`Hello world` — each chunk's lines are processed on their own, so the
truncated first line is skipped and the second half is treated as plain
text. -/
theorem consumeStream_chunk_split_neq :
    consumeStream ["0:\x7b\"typ",
        "e\":\"text-delta\",\"textDelta\":\"Hello\"\x7d\n0:\x7b\"type\":\"text\",\"text\":\" world\"\x7d\n"] ≠
      "Hello world" := by
  decide

/-- C2 amended: decoding is incremental only at the byte level; lines are
split per chunk with no carry-over, so the split input accumulates the
stray second half of the broken line as plain text (with the trailing
space the plain-text branch appends) followed by the parsed ` world`
delta. -/
theorem consumeStream_chunk_split_eval :
    consumeStream ["0:\x7b\"typ",
        "e\":\"text-delta\",\"textDelta\":\"Hello\"\x7d\n0:\x7b\"type\":\"text\",\"text\":\" world\"\x7d\n"] =
      "e\":\"text-delta\",\"textDelta\":\"Hello\"\x7d  world" := by
  decide

/-- C3 counterexample: the bullet step collects only two findings here,
so the cap check `fewer than five` lets the numbered step add `Third`;
the result is not the two-element list the claim states. -/
theorem extractKeyFindings_cap_neq :
    extractKeyFindings "• First\n• Second\n1. Third\n" ≠ ["First", "Second"] := by
  decide

/-- C3 amended: numbered lines top up whenever the bullet step collected
fewer than five findings (not only when it collected zero), so this input
yields `First`, `Second` and `Third`; the sentence step still runs only
when both earlier steps produced nothing. -/
theorem extractKeyFindings_cap_eval :
    extractKeyFindings "• First\n• Second\n1. Third\n" = ["First", "Second", "Third"] := by
  decide

/-- C7 counterexample: a `failed` poll with no remote error field returns
`errorMessage` null — there is no generic fallback string. -/
theorem failed_no_fallback_counterexample :
    getStatusModel "job1" [] envFailedW =
      .ok ⟨⟨"job1", ClientStage.error, 0, none, none⟩, [], 0⟩ :=
  @getStatusModel_failed "job1" [] envFailedW ⟨"failed", none, none, none⟩ rfl rfl

/-- C7 amended: a `failed` poll maps to the `error` stage and carries the
remote error message verbatim when it is present and non-empty; when the
remote response has no (or an empty) error message, `errorMessage` is
null — `jobResult.error || null` provides no fallback string. -/
theorem failed_error_message (scanId : String) (store : PixelStore)
    (env : GetStatusEnv) (jr : JobResult) (hj : env.jobResult = .ok jr)
    (hst : jr.status = "failed") :
    getStatusModel scanId store env =
      .ok ⟨⟨scanId, ClientStage.error, 0, none, jsErrOrNull jr.error⟩, store, 0⟩ :=
  getStatusModel_failed hj hst

/-- C7 witness: a `failed` poll carrying `compression crashed` surfaces
exactly that message with the error stage. -/
theorem failed_error_message_witness :
    getStatusModel "job1" [] envFailedVerbW =
      .ok ⟨⟨"job1", ClientStage.error, 0, none, some "compression crashed"⟩, [], 0⟩ :=
  failed_error_message "job1" [] envFailedVerbW
    ⟨"failed", some "compression crashed", none, none⟩ rfl rfl

/-- C10: a POST to the analyze route without a scan id (or with an empty
one) is a 400, and one whose id has no stored pixel payload is a 404
naming the requested id and the stored ids; in both cases the store is
returned unchanged and no stream response is produced. -/
theorem analyze_post_validation (store : PixelStore) (scanId : Option String)
    (s : String) :
    (scanId = none ∨ scanId = some "" →
      analyzePOST scanId store = (.badRequest, store) ∧
      analyzeHttpStatus (analyzePOST scanId store).1 = 400) ∧
    (s ≠ "" → storeGet store s = none →
      analyzePOST (some s) store = (.notFound s (storeKeys store), store) ∧
      analyzeHttpStatus (analyzePOST (some s) store).1 = 404) := by
  constructor
  · rintro (h | h) <;> subst h <;> simp [analyzePOST, analyzeHttpStatus]
  · intro hs hg
    simp [analyzePOST, analyzeHttpStatus, hs, hg]

/-- C10 witness: a missing id yields 400 on an empty store, and the id
`missing` against a store holding only `stored` yields 404 listing
`stored`, with the store unchanged. -/
theorem analyze_post_validation_witness :
    analyzePOST none [] = (.badRequest, []) ∧
    analyzePOST (some "missing") [("stored", pdW)] =
      (.notFound "missing" ["stored"], [("stored", pdW)]) := by
  constructor
  · exact ((analyze_post_validation [] none "x").1 (Or.inl rfl)).1
  · exact ((analyze_post_validation [("stored", pdW)] none "missing").2
      (by decide) (by decide)).1

/-- C4: over any poll sequence — in particular one reporting `analyzing`
on three or more consecutive ticks — the trigger's event trace is the
single block of a latch write followed by the effect start when
`analyzing` ever appears, and empty otherwise; hence the downstream
AI-analysis effect is started exactly once per job and the latch is
always set before the effect runs, never after. -/
theorem analysis_trigger_once (stages : List ClientStage) :
    runTrigger false stages =
      (if ClientStage.analyzing ∈ stages then [TrigEv.setLatch, TrigEv.startEffect]
       else []) ∧
    (runTrigger false stages).count TrigEv.startEffect =
      (if ClientStage.analyzing ∈ stages then 1 else 0) := by
  have main : runTrigger false stages =
      (if ClientStage.analyzing ∈ stages then [TrigEv.setLatch, TrigEv.startEffect]
       else []) := by
    induction stages with
    | nil => simp [runTrigger]
    | cons s rest ih =>
      by_cases hs : s = ClientStage.analyzing
      · subst hs
        simp [runTrigger, pollTrigger, runTrigger_latched]
      · simp [runTrigger, pollTrigger, hs, ih, List.mem_cons, Ne.symm hs]
  refine ⟨main, ?_⟩
  rw [main]
  by_cases hm : ClientStage.analyzing ∈ stages <;> simp [hm]

/-- C6 counterexample: a fatal stream error after a chunk carrying `Hi`
leaves non-empty accumulated text with no prior result, yet no result
record is synthesized — the catch block only surfaces the error. -/
theorem fatal_stream_skips_synthesis :
    (startAiAnalysisModel "job1" false
        (.fatal ["0:\x7b\"type\":\"text\",\"text\":\"Hi\"\x7d\n"] "network reset")).accumulated =
      "Hi" ∧
    (startAiAnalysisModel "job1" false
        (.fatal ["0:\x7b\"type\":\"text\",\"text\":\"Hi\"\x7d\n"] "network reset")).synthesized =
      none := by
  decide

/-- C6 amended: only a normally ended stream with non-empty accumulated
text and no prior result synthesizes a result record (finding extraction
over the full text plus the fixed default metadata of the source
literal); a fatal stream error synthesizes nothing — it surfaces
`AI analysis failed:` with the thrown message instead, whatever text was
accumulated. -/
theorem stream_end_synthesis (scanId : String) (prior : Bool)
    (chunks fatalChunks : List String) (msg : String)
    (hacc : (startAiAnalysisModel scanId prior (.ok chunks)).accumulated ≠ "")
    (hp : prior = false) :
    (startAiAnalysisModel scanId prior (.ok chunks)).synthesized =
      some
        { scanId := scanId
          diagnosisSummary := (startAiAnalysisModel scanId prior (.ok chunks)).accumulated
          confidencePct := 85
          keyFindings :=
            extractKeyFindings ((startAiAnalysisModel scanId prior (.ok chunks)).accumulated)
          compressedPreviewUrl := "/mock/compressed-image.png"
          modality := "MRI"
          slicesProcessed := 256
          compressionRatioPct := 20 } ∧
    (startAiAnalysisModel scanId prior (.fatal fatalChunks msg)).synthesized = none ∧
    (startAiAnalysisModel scanId prior (.fatal fatalChunks msg)).errorSet =
      some ("AI analysis failed: " ++ msg) := by
  subst hp
  simp only [startAiAnalysisModel] at hacc ⊢
  refine ⟨?_, trivial, trivial⟩
  rw [if_pos ⟨hacc, trivial⟩]

/-- C6 witness: a normally ended stream accumulating `All clear` with no
prior result synthesizes the record built from that text. -/
theorem stream_end_synthesis_witness :
    (startAiAnalysisModel "job1" false
        (.ok ["0:\x7b\"type\":\"text\",\"text\":\"All clear\"\x7d\n"])).synthesized =
      some ⟨"job1", "All clear", 85, ["AI analysis completed"],
        "/mock/compressed-image.png", "MRI", 256, 20⟩ := by
  have h := (stream_end_synthesis "job1" false
    ["0:\x7b\"type\":\"text\",\"text\":\"All clear\"\x7d\n"] [] "unused"
    (by decide) rfl).1
  rw [h]
  decide

/-- C9 counterexample: a poll whose HTTP failure message contains `404`
is converted into an `error`-stage snapshot (`Job not found`), changing
the client stage and terminating the polling loop — a transport-level
failure that is not surfaced as a retryable one. -/
theorem transport_404_terminal :
    (pollTickState "job1" [] stCompressingW env404W).1.status ≠ stCompressingW.status ∧
    ((pollTickState "job1" [] stCompressingW env404W).1.status.map StatusData.stage) =
      some ClientStage.error ∧
    keepsPolling (pollTickState "job1" [] stCompressingW env404W).1 = false := by
  decide

/-- C9 amended: a poll failing with a transport error whose message does
not contain `404` surfaces the message, leaves the status snapshot and
the store unchanged, and leaves the polling loop's continuation exactly
as it was; only a message containing `404` is converted to the terminal
`error` stage. -/
theorem transport_error_nonterminal (scanId : String) (store : PixelStore)
    (st : PageState) (env : GetStatusEnv) (m : String)
    (hj : env.jobResult = .error m)
    (h404 : containsSub ("404".data) m.data = false) :
    pollTickState scanId store st env = (⟨st.status, some m⟩, store) ∧
    keepsPolling (pollTickState scanId store st env).1 = keepsPolling st := by
  have hmain : pollTickState scanId store st env = (⟨st.status, some m⟩, store) := by
    simp [pollTickState, getStatusModel, hj, h404]
  refine ⟨hmain, ?_⟩
  rw [hmain]
  cases st
  rfl

/-- C9 witness: a `connection refused` poll against a `compressing`
snapshot surfaces the message, keeps the snapshot, and keeps polling. -/
theorem transport_error_nonterminal_witness :
    pollTickState "job1" [] stCompressingW envNetW =
      (⟨stCompressingW.status, some "connection refused"⟩, []) ∧
    keepsPolling (pollTickState "job1" [] stCompressingW envNetW).1 =
      keepsPolling stCompressingW :=
  transport_error_nonterminal "job1" [] stCompressingW envNetW
    "connection refused" rfl (by decide)


/-- C8: materialization is idempotent — once a poll for a `complete` job
has reached `analyzing` (so a payload is stored for the handle, either
found in the cache or just materialized), every later `complete` poll
takes the cached fast path: it returns `analyzing` with the identical
store (hence the identical stored payload) and performs zero
bundle-listing or artifact fetches. -/
theorem materialize_idempotent (scanId : String) (store : PixelStore)
    (env env' : GetStatusEnv) (jr jr' : JobResult) (r : GetStatusResult)
    (hj : env.jobResult = .ok jr) (hst : jr.status = "complete")
    (hj' : env'.jobResult = .ok jr') (hst' : jr'.status = "complete")
    (hr : getStatusModel scanId store env = .ok r)
    (hstage : r.status.stage = ClientStage.analyzing) :
    (∃ pd, storeGet r.store scanId = some pd) ∧
    getStatusModel scanId r.store env' =
      .ok ⟨⟨scanId, ClientStage.analyzing, 8, none, jsErrOrNull jr'.error⟩,
        r.store, 0⟩ := by
  have hpd : ∃ pd, storeGet r.store scanId = some pd := by
    cases hsg : storeGet store scanId with
    | some pd =>
      rw [getStatusModel_complete_stored hj hst hsg] at hr
      cases hr
      exact ⟨pd, hsg⟩
    | none =>
      cases hb : env.bundleMeta with
      | error m =>
        rw [getStatusModel_complete_noBundle hj hst hsg hb] at hr
        cases hr
        simp at hstage
      | ok bm =>
        cases hf : env.fetchFile (selectBaseImage bm) with
        | error m =>
          rw [getStatusModel_complete_noFile hj hst hsg hb hf] at hr
          cases hr
          simp at hstage
        | ok b64 =>
          rw [getStatusModel_complete_mat hj hst hsg hb hf] at hr
          cases hr
          exact ⟨mkPixelData jr bm b64 env.nowIso, storeGet_storeSet_self _ _ _⟩
  obtain ⟨pd, hpd'⟩ := hpd
  exact ⟨⟨pd, hpd'⟩, getStatusModel_complete_stored hj' hst' hpd'⟩

/-- C8 witness: a first `complete` poll that materializes the bundle is
followed by a second `complete` poll that returns `analyzing` from the
cache with the same store and zero bundle fetches. -/
theorem materialize_idempotent_witness :
    (∃ pd, storeGet (getStatusFirstW.store) "job1" = some pd) ∧
    getStatusModel "job1" getStatusFirstW.store envCompleteW =
      .ok ⟨⟨"job1", ClientStage.analyzing, 8, none, none⟩,
        getStatusFirstW.store, 0⟩ :=
  materialize_idempotent "job1" [] envCompleteW envCompleteW
    ⟨"complete", none, some 3, some "t1"⟩ ⟨"complete", none, some 3, some "t1"⟩
    getStatusFirstW rfl rfl rfl rfl rfl rfl


/-- Stage sequences produced by polling satisfy the sequence invariant
whenever the remote statuses are documented states forming a
non-regressing chain; the flag threads whether `compressing` has been
observed, with the invariant that `pending` can no longer appear then. -/
theorem goodFrom_observe (scanId : String) :
    ∀ (envs : List GetStatusEnv) (store : PixelStore) (seenC : Bool) (ss : List String),
      statusesOf envs = some ss → chainOk ss = true →
      (seenC = true → headNotPending ss = true) →
      goodFrom seenC (observeStages scanId store envs) = true := by
  intro envs
  induction envs with
  | nil =>
    intro store seenC ss _ _ _
    simp [observeStages, goodFrom]
  | cons e rest ih =>
    intro store seenC ss hs hchain hseen
    cases hj : e.jobResult with
    | error m => simp [statusesOf, hj] at hs
    | ok jr =>
      cases hrest : statusesOf rest with
      | none => simp [statusesOf, hj, hrest] at hs
      | some ss2 =>
        have hss : ss = jr.status :: ss2 := by
          simp [statusesOf, hj, hrest] at hs
          exact hs.symm
        subst hss
        obtain ⟨hk, hcktail, hstep⟩ := chainOk_cons hchain
        rcases knownStatus_cases hk with hst | hst | hst | hst
        · have hsc : seenC = false := by
            cases hsc2 : seenC with
            | false => rfl
            | true =>
              have hnp := hseen hsc2
              rw [hst] at hnp
              simp [headNotPending] at hnp
          subst hsc
          have hgs := @getStatusModel_pending scanId store e jr hj hst
          simp [observeStages, hgs, goodFrom]
          exact ih store false ss2 hrest hcktail (fun h => nomatch h)
        · have hgs := @getStatusModel_processing scanId store e jr hj hst
          simp [observeStages, hgs, goodFrom]
          refine ih store true ss2 hrest hcktail (fun _ => ?_)
          exact @headNotPending_of_step jr.status ss2 (by rw [hst]; decide) hk hstep
        · have hnp2 : headNotPending ss2 = true :=
            @headNotPending_of_step jr.status ss2 (by rw [hst]; decide) hk hstep
          cases hsg : storeGet store scanId with
          | some pd =>
            have hgs := @getStatusModel_complete_stored scanId store e jr pd hj hst hsg
            simp [observeStages, hgs, goodFrom]
            exact ih store seenC ss2 hrest hcktail (fun _ => hnp2)
          | none =>
            cases hb : e.bundleMeta with
            | error m =>
              have hgs := @getStatusModel_complete_noBundle scanId store e jr m hj hst hsg hb
              simp [observeStages, hgs, goodFrom]
              exact ih store true ss2 hrest hcktail (fun _ => hnp2)
            | ok bm =>
              cases hf : e.fetchFile (selectBaseImage bm) with
              | error m2 =>
                have hgs := @getStatusModel_complete_noFile scanId store e jr bm m2 hj hst hsg hb hf
                simp [observeStages, hgs, goodFrom]
                exact ih store true ss2 hrest hcktail (fun _ => hnp2)
              | ok b64 =>
                have hgs := @getStatusModel_complete_mat scanId store e jr bm b64 hj hst hsg hb hf
                simp [observeStages, hgs, goodFrom]
                exact ih _ seenC ss2 hrest hcktail (fun _ => hnp2)
        · have hgs := @getStatusModel_failed scanId store e jr hj hst
          simp [observeStages, hgs, goodFrom]

/-- C5 counterexample: the stage is recomputed from the remote state on
every poll with no clamping, so the remote sequence
`processing, pending` (both documented states) is observed as
`compressing, queued` — `queued` reappears after `compressing` was
observed, violating the claimed invariant. -/
theorem stage_sequence_can_regress :
    observeStages "job1" [] [envProcW, envPendingW] =
      [ClientStage.compressing, ClientStage.queued] ∧
    goodSeq (observeStages "job1" [] [envProcW, envPendingW]) = false := by
  decide

/-- C5 amended: when the remote status sequence uses only the four
documented states and never regresses (`pending` before `processing`
before the final `complete` or `failed`), the observed client-stage
sequence never contains `completed` or `error` followed by another entry
and never revisits `queued` after `compressing`; the code itself does not
enforce this against a regressing remote. -/
theorem stage_sequence_monotone_of_remote_chain (scanId : String)
    (store : PixelStore) (envs : List GetStatusEnv) (ss : List String)
    (hs : statusesOf envs = some ss) (hchain : chainOk ss = true) :
    goodSeq (observeStages scanId store envs) = true :=
  goodFrom_observe scanId envs store false ss hs hchain (fun h => nomatch h)

/-- C5 witness: a pending, processing, complete, complete remote chain
(with the bundle materializing on the first complete poll) yields a
well-formed stage sequence. -/
theorem stage_sequence_monotone_witness :
    goodSeq (observeStages "job1" []
      [envPendingW, envProcW, envCompleteW, envCompleteW]) = true :=
  stage_sequence_monotone_of_remote_chain "job1" []
    [envPendingW, envProcW, envCompleteW, envCompleteW]
    ["pending", "processing", "complete", "complete"] (by decide) (by decide)
end DeltaScan
